import Mathlib

/-!
Verification of the `franka_analytical_ik` Python wrapper and, where the
compiled core extension `_franka_ik` is not part of the sources, a model of
that core built from the specification.

The wrapper (`franka_analytical_ik/__init__.py`) exposes two entry points,
`SolveIK` and `SolveIKCC`.  Both assert that the input pose matrix is 4x4,
post-multiply it by a fixed homogeneous transform with a 0.1034 m
translation along the end-effector z-axis, flatten the result in
column-major order and hand the flat 16-element pose, the redundancy
parameter and the 7-element joint configuration to the core solver.

Scalars are modelled as rationals (the Python code computes with IEEE
doubles; the claims under study are structural, not about rounding).  The
all-NaN invalid sentinel of the code is modelled as `none`; a valid
solution is `some q` with `q : Fin 7 → ℚ`, so "7 elements" is carried by
the type.
-/

namespace FrankaIK

/-- Joint vectors: an ordered 7-tuple of joint angles. -/
abbrev Vec7 := Fin 7 → ℚ

/-- Homogeneous 4x4 pose matrices, as used by the wrapper. -/
abbrev Mat4 := Fin 4 → Fin 4 → ℚ

/-- Discrete configuration case: a shoulder-branch bit and an elbow-branch
bit, four cases in total. -/
abbrev Case := Bool × Bool

/-- The flat 16-element column-major pose representation handed to the core. -/
abbrev FlatPose := List ℚ

/-- Per-joint limit intervals (min, max). -/
abbrev Limits := Fin 7 → ℚ × ℚ

/-- Matrix product of two 4x4 matrices, mirroring `X_W_EE @ X_EE_offset`. -/
def matMul (A B : Mat4) : Mat4 := fun i j =>
  A i 0 * B 0 j + A i 1 * B 1 j + A i 2 * B 2 j + A i 3 * B 3 j

/-- The 4x4 identity, mirroring `np.eye(4)`. -/
def eye4 : Mat4 := fun i j => if i = j then 1 else 0

/-- Writing one entry of a matrix, mirroring `X_EE_offset[2, 3] = 0.1034`. -/
def setEntry (M : Mat4) (r c : Fin 4) (v : ℚ) : Mat4 := fun i j =>
  if i = r ∧ j = c then v else M i j

/-- The hand/flange offset constant 0.1034 (meters) from the wrapper. -/
def handOffset : ℚ := 1034 / 10000

/-- The offset matrix the wrapper builds: `np.eye(4)` with entry (2,3) set
to 0.1034. -/
def X_EE_offset : Mat4 := setEntry eye4 2 3 handOffset

/-- Column-major (`'F'`-order) flattening of a 4x4 matrix, mirroring
`X_W_EE_internal.flatten('F')`. -/
def flattenF (M : Mat4) : FlatPose :=
  [M 0 0, M 1 0, M 2 0, M 3 0,
   M 0 1, M 1 1, M 2 1, M 3 1,
   M 0 2, M 1 2, M 2 2, M 3 2,
   M 0 3, M 1 3, M 2 3, M 3 3]

/-- The flat pose the wrapper passes to the core: the input pose
post-multiplied by the offset transform, flattened column-major
(lines 47-52 and 85-90 of `__init__.py`). -/
def preparedPose (X : Mat4) : FlatPose := flattenF (matMul X X_EE_offset)

/-- Modelled from the spec: the spec says a homogeneous transform that
"translates 0.1034 meters along the end-effector frame's z-axis" — identity
rotation block, translation column (0, 0, 0.1034, 1).  Stated from the
spec's words, to be compared with the wrapper's `X_EE_offset`. -/
def specOffsetTransform : Mat4 := fun i j =>
  if j = 3 then (if i = 2 then handOffset else if i = 3 then 1 else 0)
  else if i = j then 1 else 0

/-- Modelled from the spec: position formula of column-major flattening,
entry `k` of the flat list is `M (k mod 4) (k div 4)`. -/
def specColMajorEntry (M : Mat4) (k : Fin 16) : ℚ :=
  M ⟨k.1 % 4, Nat.mod_lt _ (by norm_num)⟩ ⟨k.1 / 4, by omega⟩

/-- Modelled from the spec: reduction of the redundancy parameter into
`[0, P)` ("values outside the range are taken modulo 2π").  The period `P`
stands for 2π, which is irrational and therefore kept as a parameter of
the rational model. -/
def reduceMod (P r : ℚ) : ℚ := r - P * ⌊r / P⌋

/-- Modelled from the spec: the joint-limit predicate — every joint angle
lies within its [min, max] bound. -/
def inLimits (lim : Limits) (q : Vec7) : Prop :=
  ∀ i : Fin 7, (lim i).1 ≤ q i ∧ q i ≤ (lim i).2

instance (lim : Limits) (q : Vec7) : Decidable (inLimits lim q) :=
  inferInstanceAs (Decidable (∀ i : Fin 7, (lim i).1 ≤ q i ∧ q i ≤ (lim i).2))

/-- Modelled from the spec: the joint-limit validator — if any joint is out
of bound the entire 7-tuple is replaced by the invalid sentinel (`none`);
otherwise the tuple passes through unchanged. -/
def validate (lim : Limits) (q : Vec7) : Option Vec7 :=
  if inLimits lim q then some q else none

/-- Modelled from the spec: the case label derived from a configuration by
sign tests on its joint values (a shoulder-related joint and an
elbow-related joint). -/
def caseOf (q : Vec7) : Case := (decide (0 ≤ q 0), decide (0 ≤ q 3))

/-- Modelled from the spec: the fixed, stable case order of the exhaustive
solver — shoulder-negative/elbow-negative, shoulder-negative/elbow-positive,
shoulder-positive/elbow-negative, shoulder-positive/elbow-positive. -/
def caseOrder : List Case :=
  [(false, false), (false, true), (true, false), (true, true)]

/-- Modelled from the spec: the geometric raw solver of the core, absent
from src/ (the compiled `_franka_ik` extension).  Given the flat pose, the
reduced redundancy parameter and a case label it returns that branch's raw
joint solution, or `none` when the branch is unreachable.  The claims are
proved for every such solver, under the hypotheses the spec states about
it where needed. -/
abbrev RawSolver := FlatPose → ℚ → Case → Option Vec7

/-- Modelled from the spec: one case's solution — the raw branch solution
passed through the joint-limit validator, with the redundancy parameter
reduced modulo the period first. -/
def caseSolution (raw : RawSolver) (lim : Limits) (P : ℚ)
    (pose : FlatPose) (r : ℚ) (c : Case) : Option Vec7 :=
  (raw pose (reduceMod P r) c).bind (validate lim)

/-- Modelled from the spec: the core exhaustive solver `_franka_ik.solve_ik`
— all four case solutions in the fixed case order; the current
configuration is accepted for interface symmetry and not used for branch
selection. -/
def coreSolveIK (raw : RawSolver) (lim : Limits) (P : ℚ)
    (pose : FlatPose) (r : ℚ) (_qcur : Vec7) : List (Option Vec7) :=
  caseOrder.map (caseSolution raw lim P pose r)

/-- Modelled from the spec: the core configuration-consistent solver
`_franka_ik.solve_ik_cc` — only the solution of the case derived from the
reference configuration. -/
def coreSolveIKCC (raw : RawSolver) (lim : Limits) (P : ℚ)
    (pose : FlatPose) (r : ℚ) (qref : Vec7) : Option Vec7 :=
  caseSolution raw lim P pose r (caseOf qref)

/-- The wrapper `SolveIK` (lines 19-54 of `__init__.py`): builds the
prepared pose and calls the core exhaustive solver. -/
def SolveIK (raw : RawSolver) (lim : Limits) (P : ℚ)
    (X : Mat4) (r : ℚ) (qcur : Vec7) : List (Option Vec7) :=
  coreSolveIK raw lim P (preparedPose X) r qcur

/-- The wrapper `SolveIKCC` (lines 56-92 of `__init__.py`): builds the
prepared pose and calls the core configuration-consistent solver. -/
def SolveIKCC (raw : RawSolver) (lim : Limits) (P : ℚ)
    (X : Mat4) (r : ℚ) (qref : Vec7) : Option Vec7 :=
  coreSolveIKCC raw lim P (preparedPose X) r qref

/-- Characterisation of the validator: it returns `some` exactly on
in-limit tuples, and then returns the tuple unchanged. -/
theorem validate_some_iff (lim : Limits) (q q' : Vec7) :
    validate lim q = some q' ↔ inLimits lim q ∧ q' = q := by
  unfold validate
  by_cases h : inLimits lim q
  · simp only [if_pos h, Option.some.injEq]
    exact ⟨fun hq => ⟨h, hq.symm⟩, fun hq => hq.2.symm⟩
  · simp only [if_neg h]
    exact ⟨fun hq => absurd hq (by simp), fun hq => absurd hq.1 h⟩

/-- Characterisation of one case's solution: it is `some q` exactly when
the raw branch produced `q` and `q` passes the joint limits. -/
theorem caseSolution_some_iff (raw : RawSolver) (lim : Limits) (P : ℚ)
    (pose : FlatPose) (r : ℚ) (c : Case) (q : Vec7) :
    caseSolution raw lim P pose r c = some q ↔
      raw pose (reduceMod P r) c = some q ∧ inLimits lim q := by
  unfold caseSolution
  cases hr : raw pose (reduceMod P r) c with
  | none => simp
  | some q0 =>
      show validate lim q0 = some q ↔ some q0 = some q ∧ inLimits lim q
      rw [validate_some_iff]
      constructor
      · rintro ⟨hin, rfl⟩
        exact ⟨rfl, hin⟩
      · rintro ⟨hq, hin⟩
        injection hq with hq
        subst hq
        exact ⟨hin, rfl⟩

/-- C1: For every 4x4 target pose, redundancy parameter and
current-configuration array, the exhaustive entry point `SolveIK` returns a
sequence of exactly 4 solutions, one per discrete case, in the fixed stable
case order (shoulder-negative/elbow-negative, shoulder-negative/elbow-positive,
shoulder-positive/elbow-negative, shoulder-positive/elbow-positive), where
each element is either a 7-element joint tuple (`some q`, `q : Fin 7 → ℚ`)
or the invalid all-NaN sentinel (`none`). -/
theorem solveIK_four_cases (raw : RawSolver) (lim : Limits) (P : ℚ)
    (X : Mat4) (r : ℚ) (qcur : Vec7) :
    (SolveIK raw lim P X r qcur).length = 4 ∧
    caseOrder.Nodup ∧ (∀ c : Case, c ∈ caseOrder) ∧
    SolveIK raw lim P X r qcur =
      [caseSolution raw lim P (preparedPose X) r (false, false),
       caseSolution raw lim P (preparedPose X) r (false, true),
       caseSolution raw lim P (preparedPose X) r (true, false),
       caseSolution raw lim P (preparedPose X) r (true, true)] ∧
    ∀ s ∈ SolveIK raw lim P X r qcur, s = none ∨ ∃ q : Vec7, s = some q := by
  refine ⟨rfl, by decide, by decide, rfl, ?_⟩
  intro s _
  cases s with
  | none => exact Or.inl rfl
  | some q => exact Or.inr ⟨q, rfl⟩

/-- C7: Before invoking the core solver, both entry points pass the pose as
the flattened 16-element column-major representation of the input matrix
post-multiplied by the fixed homogeneous transform translating 0.1034 m
along the end-effector frame's z-axis; the matrix the wrapper builds out of
`np.eye(4)` equals that spec transform, and the flat list is column-major
(entry k is row k mod 4, column k div 4), identically in both wrappers. -/
theorem wrapper_passes_offset_pose (raw : RawSolver) (lim : Limits) (P : ℚ)
    (X : Mat4) (r : ℚ) (q : Vec7) :
    SolveIK raw lim P X r q =
      coreSolveIK raw lim P (flattenF (matMul X specOffsetTransform)) r q ∧
    SolveIKCC raw lim P X r q =
      coreSolveIKCC raw lim P (flattenF (matMul X specOffsetTransform)) r q ∧
    X_EE_offset = specOffsetTransform ∧
    (preparedPose X).length = 16 ∧
    ∀ k : Fin 16,
      (preparedPose X)[(k : ℕ)]? =
        some (specColMajorEntry (matMul X X_EE_offset) k) := by
  have hoff : X_EE_offset = specOffsetTransform := by
    funext i j
    fin_cases i <;> fin_cases j <;> rfl
  refine ⟨?_, ?_, hoff, rfl, ?_⟩
  · unfold SolveIK preparedPose
    rw [hoff]
  · unfold SolveIKCC preparedPose
    rw [hoff]
  · intro k
    fin_cases k <;> rfl

/-- Limits used by the concrete evaluations below: every joint bounded by
[-1, 1]. -/
def limW : Limits := fun _ => (-1, 1)

/-- An in-limits joint vector used by the concrete evaluations below. -/
def qGoodW : Vec7 := fun _ => 0

/-- An out-of-limits joint vector used by the concrete evaluations below. -/
def qBadW : Vec7 := fun _ => 2

/-- A raw solver returning the same in-limits vector on every branch, used
by the concrete evaluations below. -/
def rawConstW : RawSolver := fun _ _ _ => some qGoodW

/-- C5: The joint-limit validator is all-or-nothing — any out-of-bound
joint makes it replace the entire 7-tuple with the sentinel, it never
alters a tuple it accepts (so partially valid tuples are never returned),
and consequently every non-sentinel solution returned by either entry
point has all seven joints within bounds. -/
theorem validator_all_or_nothing (raw : RawSolver) (lim : Limits) (P : ℚ)
    (X : Mat4) (r : ℚ) (qcur qref : Vec7) :
    (∀ q : Vec7, ¬ inLimits lim q → validate lim q = none) ∧
    (∀ q : Vec7, validate lim q = none ∨ validate lim q = some q) ∧
    (∀ s ∈ SolveIK raw lim P X r qcur, ∀ q : Vec7, s = some q → inLimits lim q) ∧
    (∀ q : Vec7, SolveIKCC raw lim P X r qref = some q → inLimits lim q) := by
  refine ⟨?_, ?_, ?_, ?_⟩
  · intro q h
    simp [validate, h]
  · intro q
    by_cases h : inLimits lim q
    · exact Or.inr (by simp [validate, h])
    · exact Or.inl (by simp [validate, h])
  · intro s hs q hq
    subst hq
    unfold SolveIK coreSolveIK at hs
    rcases List.mem_map.mp hs with ⟨c, _, hc⟩
    exact ((caseSolution_some_iff raw lim P (preparedPose X) r c q).mp hc).2
  · intro q hq
    exact ((caseSolution_some_iff raw lim P (preparedPose X) r (caseOf qref) q).mp hq).2

/-- Witness for C5 at concrete inputs: the validator maps the out-of-bound
tuple to the sentinel, and a tuple returned by `SolveIKCC` is in limits. -/
theorem validator_all_or_nothing_witness :
    validate limW qBadW = none ∧ inLimits limW qGoodW :=
  ⟨(validator_all_or_nothing rawConstW limW 1 eye4 0 qGoodW qGoodW).1 qBadW (by decide),
   (validator_all_or_nothing rawConstW limW 1 eye4 0 qGoodW qGoodW).2.2.2 qGoodW (by decide)⟩

/-- Witness for C1 at concrete inputs: an element of the returned 4-list
is a 7-tuple or the sentinel. -/
theorem solveIK_four_cases_witness :
    some qGoodW = none ∨ ∃ q : Vec7, some qGoodW = some q :=
  (solveIK_four_cases rawConstW limW 1 eye4 0 qGoodW).2.2.2.2 (some qGoodW)
    (by decide)

/-- A joint vector lying in case `c` (its sign tests reproduce `c`), used
by the concrete evaluations below. -/
def vecForCase (c : Case) : Vec7 := fun i =>
  if i = 0 then (if c.1 then 0 else -1)
  else if i = 3 then (if c.2 then 0 else -1)
  else 0

/-- A raw solver that answers every branch with a vector of that branch's
case, used by the concrete evaluations below.  It satisfies the spec's
shared-predicate guarantee (section 9: the same sign tests are used
forward and backward). -/
def rawCasesW : RawSolver := fun _ _ c => some (vecForCase c)

/-- The concrete raw solver satisfies the shared-predicate guarantee. -/
theorem rawCasesW_caseOf :
    ∀ (pose : FlatPose) (rr : ℚ) (c : Case) (q : Vec7),
      rawCasesW pose rr c = some q → caseOf q = c := by
  intro pose rr c q h
  injection h with h
  subst h
  obtain ⟨b1, b2⟩ := c
  cases b1 <;> cases b2 <;> decide

/-- C2: The configuration-consistent entry point returns a single 7-tuple
whose discrete case equals the case derived from the reference
configuration, or the sentinel exactly when that case is unreachable or
violates joint limits; it never returns a solution from a different case.
The hypothesis is the spec's shared-predicate guarantee on the geometric
core: a raw branch solution always lies in the case that produced it. -/
theorem solveIKCC_case_consistent (raw : RawSolver) (lim : Limits) (P : ℚ)
    (X : Mat4) (r : ℚ) (qref : Vec7)
    (Hraw : ∀ (pose : FlatPose) (rr : ℚ) (c : Case) (q : Vec7),
      raw pose rr c = some q → caseOf q = c) :
    (∀ q : Vec7, SolveIKCC raw lim P X r qref = some q → caseOf q = caseOf qref) ∧
    (SolveIKCC raw lim P X r qref = none ↔
      raw (preparedPose X) (reduceMod P r) (caseOf qref) = none ∨
      ∃ q0 : Vec7, raw (preparedPose X) (reduceMod P r) (caseOf qref) = some q0 ∧
        ¬ inLimits lim q0) := by
  constructor
  · intro q hq
    have h := (caseSolution_some_iff raw lim P (preparedPose X) r (caseOf qref) q).mp hq
    exact Hraw (preparedPose X) (reduceMod P r) (caseOf qref) q h.1
  · unfold SolveIKCC coreSolveIKCC caseSolution
    cases hr : raw (preparedPose X) (reduceMod P r) (caseOf qref) with
    | none => simp
    | some q0 =>
        show validate lim q0 = none ↔ _
        unfold validate
        by_cases h : inLimits lim q0
        · simp only [if_pos h]
          constructor
          · intro hc
            exact absurd hc (by simp)
          · rintro (hc | ⟨q1, hq1, hn⟩)
            · exact absurd hc (by simp)
            · injection hq1 with hq1
              subst hq1
              exact absurd h hn
        · simp only [if_neg h]
          constructor
          · intro _
            exact Or.inr ⟨q0, rfl, h⟩
          · intro _
            trivial

/-- Witness for C2 at concrete inputs: the single solution returned by
`SolveIKCC` has the same case as the reference configuration. -/
theorem solveIKCC_case_consistent_witness :
    caseOf (vecForCase (caseOf qGoodW)) = caseOf qGoodW :=
  (solveIKCC_case_consistent rawCasesW limW 1 eye4 0 qGoodW rawCasesW_caseOf).1
    (vecForCase (caseOf qGoodW)) (by decide)

/-- C3: Case-consistency round trip — if `q` is one of the four
non-sentinel outputs of the exhaustive solve, then the
configuration-consistent solve at the same pose and redundancy parameter
with `q` as the reference returns exactly `q`.  The hypothesis is the
spec's shared-predicate guarantee on the geometric core. -/
theorem solveIK_solveIKCC_roundtrip (raw : RawSolver) (lim : Limits) (P : ℚ)
    (X : Mat4) (r : ℚ) (qcur q : Vec7)
    (Hraw : ∀ (pose : FlatPose) (rr : ℚ) (c : Case) (q' : Vec7),
      raw pose rr c = some q' → caseOf q' = c)
    (hq : some q ∈ SolveIK raw lim P X r qcur) :
    SolveIKCC raw lim P X r q = some q := by
  unfold SolveIK coreSolveIK at hq
  rcases List.mem_map.mp hq with ⟨c, _, hc⟩
  have h := (caseSolution_some_iff raw lim P (preparedPose X) r c q).mp hc
  have hcase : caseOf q = c := Hraw (preparedPose X) (reduceMod P r) c q h.1
  unfold SolveIKCC coreSolveIKCC
  rw [hcase]
  exact hc

/-- Witness for C3 at concrete inputs: taking the first output of the
exhaustive solve as the reference, the configuration-consistent solve
returns it unchanged. -/
theorem solveIK_solveIKCC_roundtrip_witness :
    SolveIKCC rawCasesW limW 1 eye4 0 (vecForCase (false, false)) =
      some (vecForCase (false, false)) :=
  solveIK_solveIKCC_roundtrip rawCasesW limW 1 eye4 0 qGoodW
    (vecForCase (false, false)) rawCasesW_caseOf (by decide)

/-- The reduction equals the period times the fractional part of `r / P`. -/
theorem reduceMod_eq_fract (P r : ℚ) (hP : P ≠ 0) :
    reduceMod P r = P * Int.fract (r / P) := by
  unfold reduceMod Int.fract
  rw [mul_sub, mul_div_cancel₀ _ hP]

/-- Reducing twice is the same as reducing once. -/
theorem reduceMod_idem (P r : ℚ) (hP : 0 < P) :
    reduceMod P (reduceMod P r) = reduceMod P r := by
  have h0 : P ≠ 0 := ne_of_gt hP
  rw [reduceMod_eq_fract P r h0, reduceMod_eq_fract P _ h0,
    mul_div_cancel_left₀ _ h0, Int.fract_fract]

/-- C8: For every redundancy parameter outside `[0, P)` (with the period
`P` standing for 2π), both entry points behave as if the value had been
reduced modulo the period: the outputs equal those for the reduced value,
the reduced value lies in `[0, P)`, and no error is raised (both
reductions are total functions of their inputs). -/
theorem redundancy_mod_reduction (raw : RawSolver) (lim : Limits) (P : ℚ)
    (X : Mat4) (r : ℚ) (qcur qref : Vec7) (hP : 0 < P) :
    SolveIK raw lim P X r qcur = SolveIK raw lim P X (reduceMod P r) qcur ∧
    SolveIKCC raw lim P X r qref = SolveIKCC raw lim P X (reduceMod P r) qref ∧
    0 ≤ reduceMod P r ∧ reduceMod P r < P := by
  have h0 : P ≠ 0 := ne_of_gt hP
  refine ⟨?_, ?_, ?_, ?_⟩
  · unfold SolveIK coreSolveIK caseSolution
    rw [reduceMod_idem P r hP]
  · unfold SolveIKCC coreSolveIKCC caseSolution
    rw [reduceMod_idem P r hP]
  · rw [reduceMod_eq_fract P r h0]
    exact mul_nonneg (le_of_lt hP) (Int.fract_nonneg _)
  · rw [reduceMod_eq_fract P r h0]
    calc P * Int.fract (r / P) < P * 1 := by
          exact (mul_lt_mul_left hP).mpr (Int.fract_lt_one _)
      _ = P := mul_one P

/-- Witness for C8 at concrete inputs: the reduction of 7/2 by the period
1 lies in `[0, 1)`, through the theorem applied at period 1. -/
theorem redundancy_mod_reduction_witness :
    0 ≤ reduceMod 1 (7 / 2) ∧ reduceMod 1 (7 / 2) < 1 :=
  ⟨(redundancy_mod_reduction rawConstW limW 1 eye4 (7 / 2) qGoodW qGoodW
      (by norm_num)).2.2.1,
   (redundancy_mod_reduction rawConstW limW 1 eye4 (7 / 2) qGoodW qGoodW
      (by norm_num)).2.2.2⟩

/-- A shape-carrying 2-D array as handed to the Python wrapper: the entry
function is total, the shape is data (mirrors `numpy.ndarray`). -/
structure NDArray2 where
  rows : ℕ
  cols : ℕ
  entry : ℕ → ℕ → ℚ

/-- The Python-level hard failure: a failed `assert` raises
`AssertionError`. -/
inductive PyError where
  | assertionError

/-- Reading a 4x4 array as a pose matrix. -/
def toMat4 (A : NDArray2) : Mat4 := fun i j => A.entry i.1 j.1

/-- The wrapper `SolveIK` with its boundary checks (lines 45-46 of
`__init__.py`): asserts the pose is square and 4x4, then runs the solver;
the only raised error is the assertion failure. -/
def SolveIKChecked (raw : RawSolver) (lim : Limits) (P : ℚ)
    (A : NDArray2) (r : ℚ) (qcur : Vec7) :
    Except PyError (List (Option Vec7)) :=
  if A.rows = A.cols ∧ A.rows = 4 then
    Except.ok (SolveIK raw lim P (toMat4 A) r qcur)
  else Except.error PyError.assertionError

/-- The wrapper `SolveIKCC` with its boundary checks (lines 83-84 of
`__init__.py`). -/
def SolveIKCCChecked (raw : RawSolver) (lim : Limits) (P : ℚ)
    (A : NDArray2) (r : ℚ) (qref : Vec7) :
    Except PyError (Option Vec7) :=
  if A.rows = A.cols ∧ A.rows = 4 then
    Except.ok (SolveIKCC raw lim P (toMat4 A) r qref)
  else Except.error PyError.assertionError

/-- C6: Neither entry point raises for an unreachable pose or a
joint-limit violation — for every 4x4 input (whatever the geometric core
and the limits decide, i.e. for every `raw` and `lim`, including ones that
reject everything) the call returns `ok`, and those outcomes appear only
as `none` sentinels inside the returned value; a hard failure occurs
exactly when the pose array is not square 4x4. -/
theorem no_raise_except_shape (raw : RawSolver) (lim : Limits) (P : ℚ)
    (A : NDArray2) (r : ℚ) (qcur qref : Vec7) :
    (A.rows = A.cols ∧ A.rows = 4 →
      SolveIKChecked raw lim P A r qcur =
        Except.ok (SolveIK raw lim P (toMat4 A) r qcur) ∧
      SolveIKCCChecked raw lim P A r qref =
        Except.ok (SolveIKCC raw lim P (toMat4 A) r qref)) ∧
    (¬ (A.rows = A.cols ∧ A.rows = 4) →
      SolveIKChecked raw lim P A r qcur = Except.error PyError.assertionError ∧
      SolveIKCCChecked raw lim P A r qref = Except.error PyError.assertionError) := by
  constructor
  · intro h
    constructor
    · unfold SolveIKChecked
      rw [if_pos h]
    · unfold SolveIKCCChecked
      rw [if_pos h]
  · intro h
    constructor
    · unfold SolveIKChecked
      rw [if_neg h]
    · unfold SolveIKCCChecked
      rw [if_neg h]

/-- A well-shaped 4x4 zero array, for the concrete evaluations below. -/
def arrOkW : NDArray2 := ⟨4, 4, fun _ _ => 0⟩

/-- A malformed 3x4 array, for the concrete evaluations below. -/
def arrBadW : NDArray2 := ⟨3, 4, fun _ _ => 0⟩

/-- Witness for C6 at concrete inputs: a 4x4 pose gives `ok` even under a
core that finds nothing, and a 3x4 pose gives the assertion failure. -/
theorem no_raise_except_shape_witness :
    SolveIKChecked (fun _ _ _ => none) limW 1 arrOkW 0 qGoodW =
      Except.ok (SolveIK (fun _ _ _ => none) limW 1 (toMat4 arrOkW) 0 qGoodW) ∧
    SolveIKCCChecked (fun _ _ _ => none) limW 1 arrBadW 0 qGoodW =
      Except.error PyError.assertionError :=
  ⟨((no_raise_except_shape (fun _ _ _ => none) limW 1 arrOkW 0 qGoodW qGoodW).1
      (by decide)).1,
   ((no_raise_except_shape (fun _ _ _ => none) limW 1 arrBadW 0 qGoodW qGoodW).2
      (by decide)).2⟩

/-- One call into the wrapper module: either entry point with its
arguments. -/
inductive IKCall where
  | exhaustive (X : Mat4) (r : ℚ) (qcur : Vec7)
  | caseConsistent (X : Mat4) (r : ℚ) (qref : Vec7)

/-- The result of one call. -/
inductive IKResult where
  | many (out : List (Option Vec7))
  | single (out : Option Vec7)

/-- Dispatching one call to the entry point it names. -/
def dispatchCall (raw : RawSolver) (lim : Limits) (P : ℚ) : IKCall → IKResult
  | IKCall.exhaustive X r qc => IKResult.many (SolveIK raw lim P X r qc)
  | IKCall.caseConsistent X r qr => IKResult.single (SolveIKCC raw lim P X r qr)

/-- Running a whole sequence of calls against the module.  The module
holds no mutable state (the wrapper only builds locals, the core is a pure
function per the spec), so a run is the per-call map. -/
def runCalls (raw : RawSolver) (lim : Limits) (P : ℚ)
    (cs : List IKCall) : List IKResult :=
  cs.map (dispatchCall raw lim P)

/-- C9: Both entry points are deterministic and stateless — in any two
call sequences, calls with identical inputs produce identical outputs, at
whatever positions they occur and regardless of the calls made before or
between them; no state persists across invocations. -/
theorem deterministic_stateless (raw : RawSolver) (lim : Limits) (P : ℚ)
    (cs cs' : List IKCall) (i j : ℕ) (h : cs[i]? = cs'[j]?) :
    (runCalls raw lim P cs)[i]? = (runCalls raw lim P cs')[j]? := by
  simp only [runCalls, List.getElem?_map, h]

/-- Witness for C9 at concrete inputs: the same call, made alone or after
an unrelated call, yields the same result. -/
theorem deterministic_stateless_witness :
    (runCalls rawConstW limW 1 [IKCall.exhaustive eye4 0 qGoodW])[0]? =
      (runCalls rawConstW limW 1
        [IKCall.caseConsistent eye4 1 qBadW, IKCall.exhaustive eye4 0 qGoodW])[1]? :=
  deterministic_stateless rawConstW limW 1
    [IKCall.exhaustive eye4 0 qGoodW]
    [IKCall.caseConsistent eye4 1 qBadW, IKCall.exhaustive eye4 0 qGoodW]
    0 1 rfl

/-- Matrix product is associative. -/
theorem matMul_assoc (A B C : Mat4) :
    matMul (matMul A B) C = matMul A (matMul B C) := by
  funext i j
  unfold matMul
  ring

/-- The identity is a left unit for the product. -/
theorem matMul_eye_left (A : Mat4) : matMul eye4 A = A := by
  funext i j
  fin_cases i <;> simp +decide [matMul, eye4]

/-- The identity is a right unit for the product. -/
theorem matMul_eye_right (A : Mat4) : matMul A eye4 = A := by
  funext i j
  fin_cases j <;> simp +decide [matMul, eye4]

/-- The inverse of the hand-offset transform: translation by -0.1034
along z. -/
def offsetInvMat : Mat4 := setEntry eye4 2 3 (-handOffset)

/-- The offset transform times its inverse is the identity. -/
theorem offset_mul_inv : matMul X_EE_offset offsetInvMat = eye4 := by
  funext i j
  fin_cases i <;> fin_cases j <;>
    simp +decide [matMul, X_EE_offset, offsetInvMat, setEntry, eye4]

/-- Rebuilding a 4x4 matrix from its column-major flat form. -/
def unflatten (l : FlatPose) : Mat4 := fun i j => l.getD (4 * j.1 + i.1) 0

/-- Flattening then rebuilding is the identity. -/
theorem unflatten_flattenF (M : Mat4) : unflatten (flattenF M) = M := by
  funext i j
  fin_cases i <;> fin_cases j <;> rfl

/-- Forward kinematics to the end-effector frame, given forward kinematics
`fk` of the chain to the frame the core solves for: the flange offset is
removed again. -/
def fkEE (fk : Vec7 → Mat4) (q : Vec7) : Mat4 := matMul (fk q) offsetInvMat

/-- C4: For every valid (non-sentinel) solution returned by either entry
point, applying the chain's forward kinematics to the 7 returned joint
angles reproduces the input end-effector pose (exactly, in the rational
model — the documented tolerance absorbs only floating-point noise).  The
hypothesis is the spec's exactness guarantee on the geometric core: a raw
branch solution forward-maps onto the pose the core was given. -/
theorem fk_roundtrip (raw : RawSolver) (lim : Limits) (P : ℚ)
    (fk : Vec7 → Mat4) (X : Mat4) (r : ℚ) (qcur qref : Vec7)
    (Hfk : ∀ (M : Mat4) (rr : ℚ) (c : Case) (q : Vec7),
      raw (flattenF M) rr c = some q → fk q = M) :
    (∀ s ∈ SolveIK raw lim P X r qcur, ∀ q : Vec7, s = some q → fkEE fk q = X) ∧
    (∀ q : Vec7, SolveIKCC raw lim P X r qref = some q → fkEE fk q = X) := by
  have key : ∀ (c : Case) (q : Vec7),
      caseSolution raw lim P (preparedPose X) r c = some q → fkEE fk q = X := by
    intro c q hc
    have h := (caseSolution_some_iff raw lim P (preparedPose X) r c q).mp hc
    have hfk : fk q = matMul X X_EE_offset :=
      Hfk (matMul X X_EE_offset) (reduceMod P r) c q h.1
    unfold fkEE
    rw [hfk, matMul_assoc, offset_mul_inv, matMul_eye_right]
  constructor
  · intro s hs q hq
    subst hq
    unfold SolveIK coreSolveIK at hs
    rcases List.mem_map.mp hs with ⟨c, _, hc⟩
    exact key c q hc
  · intro q hq
    exact key (caseOf qref) q hq

/-- A raw solver that answers only the pose it is keyed on, used by the
concrete evaluations below; paired with the constant forward kinematics
`fkW` it satisfies the exactness guarantee. -/
def rawPoseW : RawSolver := fun p _ _ =>
  if unflatten p = X_EE_offset then some qGoodW else none

/-- The constant forward kinematics matching `rawPoseW`. -/
def fkW : Vec7 → Mat4 := fun _ => X_EE_offset

/-- The concrete raw solver satisfies the exactness guarantee. -/
theorem rawPoseW_exact :
    ∀ (M : Mat4) (rr : ℚ) (c : Case) (q : Vec7),
      rawPoseW (flattenF M) rr c = some q → fkW q = M := by
  intro M rr c q h
  unfold rawPoseW at h
  rw [unflatten_flattenF] at h
  by_cases hM : M = X_EE_offset
  · rw [fkW, hM]
  · rw [if_neg hM] at h
    exact absurd h (by simp)

/-- The prepared pose of the identity input is the flat offset matrix. -/
theorem preparedPose_eye : preparedPose eye4 = flattenF X_EE_offset := by
  unfold preparedPose
  rw [matMul_eye_left]

/-- The keyed raw solver fires on the prepared identity pose. -/
theorem solveIKCC_rawPoseW_eval :
    SolveIKCC rawPoseW limW 1 eye4 0 qGoodW = some qGoodW := by
  unfold SolveIKCC coreSolveIKCC caseSolution rawPoseW
  rw [preparedPose_eye, unflatten_flattenF, if_pos rfl]
  decide

/-- Witness for C4 at concrete inputs: the forward kinematics of the
solution returned for the identity pose is the identity pose. -/
theorem fk_roundtrip_witness : fkEE fkW qGoodW = eye4 :=
  (fk_roundtrip rawPoseW limW 1 fkW eye4 0 qGoodW qGoodW rawPoseW_exact).2
    qGoodW solveIKCC_rawPoseW_eval

/-- A Python heap object reachable from the wrapper: a 4x4 array, a
7-element array, or a flat 16-element array. -/
inductive PyObj where
  | mat (M : Mat4)
  | vec (q : Vec7)
  | flat (l : FlatPose)

/-- The store transformation the wrapper body performs (identical in
`SolveIK` and `SolveIKCC`): `X_W_EE.copy()` allocates, `np.eye(4)`
allocates, `X_EE_offset[2, 3] = 0.1034` writes into that fresh array only,
`X_W_EE @ X_EE_offset` allocates, `.flatten('F')` allocates.  Caller cells
are never written. -/
def wrapperHeapSteps (X : Mat4) (s : List PyObj) : List PyObj :=
  (((((s ++ [PyObj.mat X]) ++ [PyObj.mat eye4]).set (s.length + 1)
      (PyObj.mat X_EE_offset)) ++ [PyObj.mat (matMul X X_EE_offset)]) ++
    [PyObj.flat (preparedPose X)])

/-- Cells that existed before the wrapper ran are untouched by its store
transformation. -/
theorem wrapperHeapSteps_frame (X : Mat4) (s : List PyObj) (i : ℕ)
    (hi : i < s.length) : (wrapperHeapSteps X s)[i]? = s[i]? := by
  unfold wrapperHeapSteps
  have l1 : (s ++ [PyObj.mat X]).length = s.length + 1 := by simp
  have l2 : ((s ++ [PyObj.mat X]) ++ [PyObj.mat eye4]).length = s.length + 2 := by
    simp
  have l3 : (((s ++ [PyObj.mat X]) ++ [PyObj.mat eye4]).set (s.length + 1)
      (PyObj.mat X_EE_offset)).length = s.length + 2 := by
    rw [List.length_set, l2]
  have l4 : ((((s ++ [PyObj.mat X]) ++ [PyObj.mat eye4]).set (s.length + 1)
      (PyObj.mat X_EE_offset)) ++ [PyObj.mat (matMul X X_EE_offset)]).length =
      s.length + 3 := by
    rw [List.length_append, l3]
    rfl
  rw [List.getElem?_append, if_pos (by omega)]
  rw [List.getElem?_append, if_pos (by omega)]
  rw [List.getElem?_set_ne (by omega)]
  rw [List.getElem?_append, if_pos (by omega)]
  rw [List.getElem?_append, if_pos (by omega)]

/-- The wrapper `SolveIK` run against an explicit store: the pose and the
current configuration are read from caller-owned cells `xr` and `qr`; all
arrays the body builds are fresh.  Returns the store after the call and
the result (`none` when the cells do not hold a 4x4 array and a 7-array). -/
def SolveIKHeap (raw : RawSolver) (lim : Limits) (P : ℚ)
    (s : List PyObj) (xr qr : ℕ) (r : ℚ) :
    List PyObj × Option (List (Option Vec7)) :=
  match s[xr]?, s[qr]? with
  | some (PyObj.mat X), some (PyObj.vec qc) =>
      (wrapperHeapSteps X s, some (coreSolveIK raw lim P (preparedPose X) r qc))
  | _, _ => (s, none)

/-- The wrapper `SolveIKCC` run against an explicit store. -/
def SolveIKCCHeap (raw : RawSolver) (lim : Limits) (P : ℚ)
    (s : List PyObj) (xr qr : ℕ) (r : ℚ) :
    List PyObj × Option (Option Vec7) :=
  match s[xr]?, s[qr]? with
  | some (PyObj.mat X), some (PyObj.vec qref) =>
      (wrapperHeapSteps X s, some (coreSolveIKCC raw lim P (preparedPose X) r qref))
  | _, _ => (s, none)

/-- C10: Neither entry point mutates its caller-supplied arguments — after
a call to `SolveIK` or `SolveIKCC`, every store cell that existed before
the call (in particular the input pose matrix and the current
configuration array) holds the same value as before; the offset-corrected
pose is built in fresh arrays. -/
theorem no_argument_mutation (raw : RawSolver) (lim : Limits) (P : ℚ)
    (s : List PyObj) (xr qr : ℕ) (r : ℚ) (i : ℕ) (hi : i < s.length) :
    ((SolveIKHeap raw lim P s xr qr r).1)[i]? = s[i]? ∧
    ((SolveIKCCHeap raw lim P s xr qr r).1)[i]? = s[i]? := by
  constructor
  · unfold SolveIKHeap
    rcases s[xr]? with _ | (X | q | l) <;> rcases s[qr]? with _ | (M | qc | l2) <;>
      first
        | rfl
        | exact wrapperHeapSteps_frame _ s i hi
  · unfold SolveIKCCHeap
    rcases s[xr]? with _ | (X | q | l) <;> rcases s[qr]? with _ | (M | qc | l2) <;>
      first
        | rfl
        | exact wrapperHeapSteps_frame _ s i hi

/-- A two-cell store holding the caller's pose and configuration, for the
concrete evaluation below. -/
def storeW : List PyObj := [PyObj.mat eye4, PyObj.vec qGoodW]

/-- Witness for C10 at concrete inputs: the caller's pose cell is
unchanged by both calls. -/
theorem no_argument_mutation_witness :
    ((SolveIKHeap rawConstW limW 1 storeW 0 1 0).1)[0]? = storeW[0]? ∧
    ((SolveIKCCHeap rawConstW limW 1 storeW 0 1 0).1)[0]? = storeW[0]? :=
  no_argument_mutation rawConstW limW 1 storeW 0 1 0 0 (by decide)

end FrankaIK
